import Mathlib

/-!
Verification of the interactive widget logic of the linear-mcp demo
application: the DataCard selection toggle (`card-data.tsx`), the
EditableIssueTable edit buffer and save flow (`editable-issue-table.tsx`),
and the RenderDiagram input schema and rendering error handling
(`render-diagram.tsx`), modelled as pure state-transition functions.
-/

namespace LinearMcp

/-! ### DataCard (src/components/ui/card-data.tsx) -/

/-- `handleToggleCard` from `card-data.tsx` (lines 63-79): copies
`state.selectedValues`, computes `indexOf(value)`; if found
(`index > -1`) removes that element with `splice(index, 1)`, otherwise
pushes `value`; the result becomes the new selection state.  JS `indexOf`
returns `-1` when absent while `List.indexOf` returns the length, so the
`index > -1` test is rendered as `index < length`. -/
def handleToggleCard (selectedValues : List String) (value : String) : List String :=
  let index := selectedValues.indexOf value
  if index < selectedValues.length then
    selectedValues.eraseIdx index
  else
    selectedValues ++ [value]

/-! ### EditableIssueTable (src/components/ui/editable-issue-table.tsx)

The second component in the file (lines 293-491), with `identifier` and
`priority` fields, is the one the registry exports; the edit buffer is the
JS object `editState : Record<string, Partial<Fields>>`, modelled as an
association list in object-key insertion order. -/

/-- One row of the `issues` prop (the `editableIssueTableSchema` issue
shape): `id`, optional `identifier`, `title`, `description`, nullable
`assigneeId`, `status`, numeric `priority`, `lastUpdated`. -/
structure Issue where
  id : String
  identifier : Option String
  title : String
  description : String
  assigneeId : Option String
  status : String
  priority : Int
  lastUpdated : String
deriving Repr, DecidableEq

/-- The editable fields an edit-buffer entry may override (the dynamic
`[field]` keys `handleFieldChange` is invoked with). -/
inductive Field where
  | title
  | description
  | assigneeId
  | status
  | priority
deriving Repr, DecidableEq

/-- A JS value as stored in an edit-buffer entry: a string, a number
(integer precision — the priority select only produces "0".."4"), NaN
(`Number` applied to a non-numeric string), or `null`. -/
inductive JSValue where
  | str (s : String)
  | num (n : Int)
  | nan
  | null
deriving Repr, DecidableEq

/-- JS `Number(s)` for a nonempty string, at integer precision: an integer
string converts to its value, anything else to NaN. -/
def jsNumber (s : String) : JSValue :=
  match s.toInt? with
  | some n => JSValue.num n
  | none => JSValue.nan

/-- One edit-buffer entry: the `Partial<...>` override object for one
record, as a field-to-value association list. -/
abbrev Entry := List (Field × JSValue)

/-- The edit buffer `editState`: record key to override entry. -/
abbrev EditState := List (String × Entry)

/-- JS object update `{...obj, [k]: v}`: replaces the binding of an
existing key in place, appends a new key at the end (object-key insertion
order). -/
def updateAssoc {α β : Type} [DecidableEq α] (l : List (α × β)) (k : α) (v : β) :
    List (α × β) :=
  match l with
  | [] => [(k, v)]
  | (k', v') :: t => if k' = k then (k, v) :: t else (k', v') :: updateAssoc t k v

/-- `editState[id]`, defaulting a missing key to the empty object (the
`...prev[id]` spread of `undefined` contributes no fields). -/
def entryFor (es : EditState) (id : String) : Entry :=
  (es.lookup id).getD []

/-- The value `handleFieldChange` stores:
`field === "priority" ? (value ? Number(value) : 0) : value` — for the
priority field a falsy value (`null` or `""`) becomes `0` and any other
string goes through `Number`; every other field stores the raw
string-or-null value. -/
def storedValue (field : Field) (value : Option String) : JSValue :=
  match field with
  | .priority =>
    match value with
    | some s => if s = "" then JSValue.num 0 else jsNumber s
    | none => JSValue.num 0
  | _ =>
    match value with
    | some s => JSValue.str s
    | none => JSValue.null

/-- The table widget's local state: the edit buffer and the saving flag. -/
structure TableState where
  editState : EditState
  isSaving : Bool
deriving Repr, DecidableEq

/-- The initial state: empty edit buffer, not saving. -/
def initialTableState : TableState := { editState := [], isSaving := false }

/-- `handleFieldChange` (lines 312-325): bails out when `isSaving`,
otherwise `setEditState(prev => ({...prev, [id]: {...prev[id], [field]: v}}))`
with `v` the converted stored value. -/
def handleFieldChange (st : TableState) (id : String) (field : Field)
    (value : Option String) : TableState :=
  if st.isSaving then st
  else
    { st with
      editState :=
        updateAssoc st.editState id
          (updateAssoc (entryFor st.editState id) field (storedValue field value)) }

/-- The `changes` array of `handleSave`:
`Object.entries(editState).filter(([idFields]) => Object.keys(editState[idFields]).length > 0).map(([id, fields]) => ({id, changes: fields}))`
— entries whose override object still has at least one key. -/
def computeChanges (es : EditState) : List (String × Entry) :=
  (es.filter (fun p => !(entryFor es p.1).isEmpty)).map (fun p => (p.1, p.2))

/-- `handleSave` (lines 327-340): when `changes` is nonempty it sets
`isSaving`, awaits `onSave(changes)` — modelled by the call's outcome
`saveResult` — clears the buffer with `setEditState({})` on normal return,
and in all cases (`finally`) resets `isSaving`; with no changes it does
nothing.  `saveResult` is `.ok ()` when the `onSave` callback returns
without throwing and `.error e` when it throws. -/
def handleSave (st : TableState) (saveResult : Except String Unit) : TableState :=
  if (computeChanges st.editState).length > 0 then
    match saveResult with
    | .ok _ => { editState := [], isSaving := false }
    | .error _ => { st with isSaving := false }
  else st

/-- JS nullish coalescing `x ?? d`: falls through on `undefined` (absent,
`none`) and on `null`. -/
def nullish (v : Option JSValue) (fallback : JSValue) : JSValue :=
  match v with
  | none => fallback
  | some JSValue.null => fallback
  | some w => w

/-- The buffer key the table derives from a rendered issue:
`issue.identifier ?? issue.id`. -/
def issueKey (i : Issue) : String :=
  i.identifier.getD i.id

/-- The buffered override for one field of one issue:
`editState[issue.identifier ?? issue.id]`'s `field` property (`undefined`
when the entry or the property is absent). -/
def lookupField (es : EditState) (key : String) (f : Field) : Option JSValue :=
  (entryFor es key).lookup f

/-- `issue.assigneeId` as a JS value (`null` when unassigned). -/
def optStrToJS : Option String → JSValue
  | some s => JSValue.str s
  | none => JSValue.null

/-- Displayed title input value: `edited.title ?? issue.title`. -/
def displayedTitle (es : EditState) (i : Issue) : JSValue :=
  nullish (lookupField es (issueKey i) .title) (JSValue.str i.title)

/-- Displayed description value: `edited.description ?? issue.description`. -/
def displayedDescription (es : EditState) (i : Issue) : JSValue :=
  nullish (lookupField es (issueKey i) .description) (JSValue.str i.description)

/-- Displayed assignee select value:
`edited.assigneeId ?? issue.assigneeId ?? ""`. -/
def displayedAssigneeId (es : EditState) (i : Issue) : JSValue :=
  nullish (lookupField es (issueKey i) .assigneeId)
    (nullish (some (optStrToJS i.assigneeId)) (JSValue.str ""))

/-- Displayed status select value: `edited.status ?? issue.status`. -/
def displayedStatus (es : EditState) (i : Issue) : JSValue :=
  nullish (lookupField es (issueKey i) .status) (JSValue.str i.status)

/-- Displayed priority select value:
`edited.priority ?? issue.priority ?? 0`. -/
def displayedPriority (es : EditState) (i : Issue) : JSValue :=
  nullish (lookupField es (issueKey i) .priority)
    (nullish (some (JSValue.num i.priority)) (JSValue.num 0))

/-- A sample issue row with an assignee, used to exercise the display and
save paths at concrete inputs. -/
def sampleIssue : Issue :=
  { id := "iss_1", identifier := some "LIN-1", title := "T", description := "D",
    assigneeId := some "alice", status := "todo", priority := 3,
    lastUpdated := "2025-01-01T00:00:00Z" }

/-- An edit buffer holding the single override `assigneeId = null` for
LIN-1 (the state after picking "Unassigned" in that row's select). -/
def bufferUnassign : EditState :=
  [("LIN-1", [(Field.assigneeId, JSValue.null)])]

/-- A user-visible table operation: a field change on a rendered issue's
row (the key the handlers receive is `issue.identifier ?? issue.id`), or a
save together with the outcome of its `onSave` call. -/
inductive TableOp where
  | fieldChange (issue : Issue) (field : Field) (value : Option String)
  | save (result : Except String Unit)

/-- The state transition of one operation. -/
def applyOp (st : TableState) : TableOp → TableState
  | .fieldChange i f v => handleFieldChange st (issueKey i) f v
  | .save r => handleSave st r

/-- The state after a sequence of operations. -/
def applyOps (st : TableState) (ops : List TableOp) : TableState :=
  ops.foldl applyOp st

/-- The operation's issue (when it has one) is drawn from the supplied
`issues` prop: `handleFieldChange` is only invoked from a rendered row. -/
def opFromIssues (issues : List Issue) : TableOp → Bool
  | .fieldChange i _ _ => issues.contains i
  | .save _ => true

/-- Every key of the edit buffer references a record identifier present in
the supplied `issues` input. -/
def keysFromIssues (issues : List Issue) (es : EditState) : Prop :=
  ∀ p ∈ es, ∃ i ∈ issues, p.1 = issueKey i

/-! ### RenderDiagram (src/components/ui/render-diagram.tsx) -/

/-- A raw diagram payload as seen by `renderDiagramSchema` before
validation: each field may be present or absent (`title`, `theme`,
`width`, `height` are `.optional()`, `diagram` is required). -/
structure RawDiagramPayload where
  diagram : Option String
  title : Option String
  theme : Option String
  width : Option String
  height : Option String
deriving Repr, DecidableEq

/-- The parsed props after `renderDiagramSchema` validation with defaults
applied. -/
structure RenderDiagramProps where
  diagram : String
  title : Option String
  theme : String
  width : String
  height : String
deriving Repr, DecidableEq

/-- The `z.enum` values accepted for `theme`. -/
def themeValues : List String := ["default", "dark", "forest", "base", "neutral"]

/-- `renderDiagramSchema.parse` (lines 9-29): `diagram` must be present;
`theme` must be one of the enum values when present and defaults to
"default"; `width` and `height` default to "100%" and "400px". -/
def parseRenderDiagram (p : RawDiagramPayload) : Option RenderDiagramProps :=
  match p.diagram with
  | none => none
  | some d =>
    match p.theme with
    | none =>
      some { diagram := d, title := p.title, theme := "default",
             width := p.width.getD "100%", height := p.height.getD "400px" }
    | some t =>
      if themeValues.contains t then
        some { diagram := d, title := p.title, theme := t,
               width := p.width.getD "100%", height := p.height.getD "400px" }
      else none

/-- The diagram widget's view state: the rendered surface
(`diagramRef.current.innerHTML`), the `error` message, the `lastValidSvg`
render cache, and the `isLoading` flag. -/
structure DiagramState where
  surface : String
  error : Option String
  lastValidSvg : Option String
  isLoading : Bool
deriving Repr, DecidableEq

/-- The outcome of `await mermaid.render(...)`: a produced SVG, a thrown
`Error` with its message, or a thrown non-`Error` value. -/
inductive RenderOutcome where
  | ok (svg : String)
  | errObj (message : String)
  | errOther
deriving Repr, DecidableEq

/-- Whether the outcome is a thrown exception. -/
def RenderOutcome.isError : RenderOutcome → Bool
  | .ok _ => false
  | .errObj _ => true
  | .errOther => true

/-- The `catch` branch of `renderDiagram` (lines 91-109): sets the error
message; when `isComplete` it clears the surface, otherwise it restores
`lastValidSvg` (the value captured when the effect ran, given as part of
`st`) when one exists.  `cleared` is the state after the `try` prologue. -/
def renderCatch (st cleared : DiagramState) (msg : String) (isComplete : Bool) :
    DiagramState :=
  let failed := { cleared with error := some msg }
  let updated :=
    if isComplete then { failed with surface := "" }
    else
      match st.lastValidSvg with
      | some svg => { failed with surface := svg }
      | none => failed
  { updated with isLoading := false }

/-- The `renderDiagram` async closure of the render effect (lines 66-116):
`setIsLoading(true); setError(null)`, clear the surface, await
`mermaid.render`; on success store `lastValidSvg` and write the SVG to the
surface when `isComplete || !error` (`error` being the state captured when
the effect ran, i.e. `st.error`); on an exception run the catch branch;
`finally` reset `isLoading`. -/
def renderDiagram (st : DiagramState) (isComplete : Bool) (outcome : RenderOutcome) :
    DiagramState :=
  let cleared : DiagramState := { st with isLoading := true, error := none, surface := "" }
  match outcome with
  | .ok svg =>
    let withSvg := { cleared with lastValidSvg := some svg }
    let updated :=
      if isComplete || st.error.isNone then { withSvg with surface := svg } else withSvg
    { updated with isLoading := false }
  | .errObj m => renderCatch st cleared ("Invalid diagram syntax: " ++ m) isComplete
  | .errOther => renderCatch st cleared "Failed to render diagram" isComplete

/-- The JSX `{error && isComplete && ...}` guard: the inline error box is
rendered exactly when an error is set and generation is complete. -/
def errorShown (st : DiagramState) (isComplete : Bool) : Bool :=
  st.error.isSome && isComplete

/-- A payload supplying only the required `diagram` string, every optional
field omitted. -/
def defaultPayload : RawDiagramPayload :=
  { diagram := some "graph TD; A-->B;", title := none, theme := none,
    width := none, height := none }

/-! ### Theorems -/

theorem indexOf_lt_length_iff {l : List String} {a : String} :
    l.indexOf a < l.length ↔ a ∈ l := by
  induction l with
  | nil => simp
  | cons b t ih =>
    rw [List.indexOf_cons]
    by_cases h : b = a
    · simp [h]
    · have hb : (b == a) = false := by simpa using h
      simp [hb, ih, Nat.succ_lt_succ_iff]
      exact fun heq => absurd heq (fun e => h e.symm)

theorem eraseIdx_indexOf_eq_erase (l : List String) (a : String) :
    l.eraseIdx (l.indexOf a) = l.erase a := by
  induction l with
  | nil => rfl
  | cons b t ih =>
    rw [List.indexOf_cons, List.erase_cons]
    by_cases h : b = a
    · simp [h]
    · have hb : (b == a) = false := by simpa using h
      simp [hb, ih]

theorem handleToggleCard_of_mem {s : List String} {v : String} (h : v ∈ s) :
    handleToggleCard s v = s.erase v := by
  unfold handleToggleCard
  rw [if_pos (indexOf_lt_length_iff.mpr h), eraseIdx_indexOf_eq_erase]

theorem handleToggleCard_of_not_mem {s : List String} {v : String} (h : v ∉ s) :
    handleToggleCard s v = s ++ [v] := by
  unfold handleToggleCard
  exact if_neg fun hlt => h (indexOf_lt_length_iff.mp hlt)

theorem handleToggleCard_nodup {s : List String} {v : String} (hnd : s.Nodup) :
    (handleToggleCard s v).Nodup := by
  by_cases h : v ∈ s
  · rw [handleToggleCard_of_mem h]; exact hnd.erase v
  · rw [handleToggleCard_of_not_mem h]
    exact hnd.append (List.nodup_singleton v) (by simpa [List.disjoint_singleton] using h)

/-- C1: for any duplicate-free selection state (the only states the widget
produces, starting from the empty selection), toggling a value `v` adds it
when absent and removes it when present, and toggling twice restores the
original membership of `v`. -/
theorem c1_toggle_membership (s : List String) (v : String) (hnd : s.Nodup) :
    (v ∉ s → v ∈ handleToggleCard s v) ∧
    (v ∈ s → v ∉ handleToggleCard s v) ∧
    (v ∈ handleToggleCard (handleToggleCard s v) v ↔ v ∈ s) := by
  by_cases h : v ∈ s
  · have h1 : handleToggleCard s v = s.erase v := handleToggleCard_of_mem h
    have hnm : v ∉ handleToggleCard s v := by rw [h1]; exact hnd.not_mem_erase
    refine ⟨fun hc => absurd h hc, fun _ => hnm, ?_⟩
    rw [handleToggleCard_of_not_mem hnm]
    simp [h]
  · have h1 : handleToggleCard s v = s ++ [v] := handleToggleCard_of_not_mem h
    have hm : v ∈ handleToggleCard s v := by rw [h1]; simp
    refine ⟨fun _ => hm, fun hc => absurd hc h, ?_⟩
    have hnd2 : (handleToggleCard s v).Nodup := handleToggleCard_nodup hnd
    rw [handleToggleCard_of_mem hm]
    simp [hnd2.not_mem_erase, h]

theorem c1_toggle_membership_witness :
    ("b" ∉ (["a"] : List String) → "b" ∈ handleToggleCard ["a"] "b") ∧
    ("b" ∈ (["a"] : List String) → "b" ∉ handleToggleCard ["a"] "b") ∧
    ("b" ∈ handleToggleCard (handleToggleCard ["a"] "b") "b" ↔ "b" ∈ (["a"] : List String)) :=
  c1_toggle_membership ["a"] "b" (by decide)

theorem filter_ne_erase (s : List String) (v : String) :
    (s.erase v).filter (fun x => x != v) = s.filter (fun x => x != v) := by
  induction s with
  | nil => rfl
  | cons b t ih =>
    rw [List.erase_cons]
    by_cases h : b = v
    · simp [h]
    · have hb : (b == v) = false := by simpa using h
      simp [hb, List.filter_cons, ih]

/-- C10: toggling `v` never changes the membership of any other value `w`,
and the subsequence of non-`v` selections (hence the relative order of the
remaining selected values) is unchanged. -/
theorem c10_toggle_frame (s : List String) (v w : String) (h : w ≠ v) :
    (w ∈ handleToggleCard s v ↔ w ∈ s) ∧
    (handleToggleCard s v).filter (fun x => x != v) = s.filter (fun x => x != v) := by
  by_cases hm : v ∈ s
  · rw [handleToggleCard_of_mem hm]
    exact ⟨List.mem_erase_of_ne h, filter_ne_erase s v⟩
  · rw [handleToggleCard_of_not_mem hm]
    refine ⟨by simp [h], ?_⟩
    simp [List.filter_append]

theorem c10_toggle_frame_witness :
    ("b" ∈ handleToggleCard ["a", "b"] "a" ↔ "b" ∈ (["a", "b"] : List String)) ∧
    (handleToggleCard ["a", "b"] "a").filter (fun x => x != "a")
      = (["a", "b"] : List String).filter (fun x => x != "a") :=
  c10_toggle_frame ["a", "b"] "a" "b" (by decide)

/-- C9: while `isSaving` is set, `handleFieldChange` returns the state
untouched, so no edit is recorded between `onSave`'s invocation and its
completion. -/
theorem c9_field_change_noop_while_saving (st : TableState) (id : String)
    (f : Field) (v : Option String) (h : st.isSaving = true) :
    handleFieldChange st id f v = st := by
  simp [handleFieldChange, h]

theorem c9_field_change_noop_while_saving_witness :
    handleFieldChange { editState := bufferUnassign, isSaving := true }
      "LIN-2" Field.status (some "done")
      = { editState := bufferUnassign, isSaving := true } :=
  c9_field_change_noop_while_saving
    { editState := bufferUnassign, isSaving := true } "LIN-2" Field.status (some "done") rfl

theorem computeChanges_cons_pos (k : String) (e : Entry) (rest : EditState)
    (he : e ≠ []) : 0 < (computeChanges ((k, e) :: rest)).length := by
  have h1 : entryFor ((k, e) :: rest) k = e := by simp [entryFor]
  have h2 : e.isEmpty = false := by
    cases e with
    | nil => exact absurd rfl he
    | cons x t => rfl
  simp [computeChanges, List.filter_cons, h1, h2]

/-- C2: starting from a nonempty edit buffer (each entry carrying at least
one override, as `handleFieldChange` guarantees), a save whose `onSave`
call returns normally clears the buffer and resets the saving flag, while
a save whose `onSave` call throws leaves the buffer exactly as it was —no
pending override is lost — and only resets the saving flag. -/
theorem c2_save_clears_iff_success (st : TableState) (hne : st.editState ≠ [])
    (hent : ∀ p ∈ st.editState, p.2 ≠ ([] : Entry)) :
    ((handleSave st (Except.ok ())).editState = [] ∧
     (handleSave st (Except.ok ())).isSaving = false) ∧
    (∀ e, (handleSave st (Except.error e)).editState = st.editState ∧
          (handleSave st (Except.error e)).isSaving = false ∧
          (handleSave st (Except.error e)).editState ≠ []) := by
  obtain ⟨k, en, rest, hes⟩ : ∃ k en rest, st.editState = (k, en) :: rest := by
    cases h : st.editState with
    | nil => exact absurd h hne
    | cons p rest =>
      obtain ⟨k0, e0⟩ := p
      exact ⟨k0, e0, rest, rfl⟩
  have hen : en ≠ [] := hent (k, en) (by rw [hes]; exact List.mem_cons_self _ _)
  have hchanges : 0 < (computeChanges st.editState).length := by
    rw [hes]; exact computeChanges_cons_pos k en rest hen
  refine ⟨?_, fun e => ?_⟩
  · simp [handleSave, hchanges]
  · simp [handleSave, hchanges, hne]

theorem c2_save_clears_iff_success_witness :
    ((handleSave { editState := bufferUnassign, isSaving := false }
        (Except.ok ())).editState = [] ∧
     (handleSave { editState := bufferUnassign, isSaving := false }
        (Except.ok ())).isSaving = false) ∧
    (∀ e, (handleSave { editState := bufferUnassign, isSaving := false }
            (Except.error e)).editState = bufferUnassign ∧
          (handleSave { editState := bufferUnassign, isSaving := false }
            (Except.error e)).isSaving = false ∧
          (handleSave { editState := bufferUnassign, isSaving := false }
            (Except.error e)).editState ≠ []) :=
  c2_save_clears_iff_success { editState := bufferUnassign, isSaving := false }
    (by decide) (by decide)

/-- C4 (failing input): with the buffered override `assigneeId = null` —
the state after the user picks "Unassigned" — for issue LIN-1 whose prop
assignee is "alice", the assignee select displays "alice" again: the
stored `null` falls through `edited.assigneeId ?? issue.assigneeId ?? ""`,
so the display reverts to the prop's assignee instead of showing the
unassigned value `""` the claim states. -/
theorem c4_assignee_null_override_reverts :
    displayedAssigneeId bufferUnassign sampleIssue = JSValue.str "alice" ∧
    displayedAssigneeId bufferUnassign sampleIssue ≠ JSValue.str "" := by
  constructor
  · rfl
  · decide

theorem mem_updateAssoc {α β : Type} [DecidableEq α] {l : List (α × β)} {k : α}
    {v : β} {p : α × β} (h : p ∈ updateAssoc l k v) : p ∈ l ∨ p.1 = k := by
  induction l with
  | nil =>
    simp only [updateAssoc, List.mem_singleton] at h
    exact Or.inr (by rw [h])
  | cons q t ih =>
    obtain ⟨k', v'⟩ := q
    simp only [updateAssoc] at h
    by_cases hk : k' = k
    · rw [if_pos hk] at h
      rcases List.mem_cons.mp h with h1 | h1
      · exact Or.inr (by rw [h1])
      · exact Or.inl (List.mem_cons_of_mem _ h1)
    · rw [if_neg hk] at h
      rcases List.mem_cons.mp h with h1 | h1
      · exact Or.inl (by rw [h1]; exact List.mem_cons_self _ _)
      · rcases ih h1 with h2 | h2
        · exact Or.inl (List.mem_cons_of_mem _ h2)
        · exact Or.inr h2

theorem handleSave_editState (st : TableState) (r : Except String Unit) :
    (handleSave st r).editState = st.editState ∨ (handleSave st r).editState = [] := by
  unfold handleSave
  by_cases h : 0 < (computeChanges st.editState).length
  · rw [if_pos h]
    cases r with
    | ok u => exact Or.inr rfl
    | error e => exact Or.inl rfl
  · rw [if_neg h]
    exact Or.inl rfl

theorem keysFromIssues_applyOp {issues : List Issue} {st : TableState}
    {op : TableOp} (hst : keysFromIssues issues st.editState)
    (hop : opFromIssues issues op = true) :
    keysFromIssues issues (applyOp st op).editState := by
  cases op with
  | fieldChange i f v =>
    have hi : i ∈ issues := by
      simpa [opFromIssues, List.contains, List.elem_iff] using hop
    intro p hp
    simp only [applyOp, handleFieldChange] at hp
    by_cases hs : st.isSaving
    · rw [if_pos hs] at hp
      exact hst p hp
    · rw [if_neg hs] at hp
      rcases mem_updateAssoc hp with h1 | h1
      · exact hst p h1
      · exact ⟨i, hi, h1⟩
  | save r =>
    intro p hp
    simp only [applyOp] at hp
    rcases handleSave_editState st r with h | h
    · rw [h] at hp
      exact hst p hp
    · rw [h] at hp
      cases hp

theorem keysFromIssues_applyOps (issues : List Issue) (ops : List TableOp) :
    ∀ st : TableState, (∀ op ∈ ops, opFromIssues issues op = true) →
      keysFromIssues issues st.editState →
      keysFromIssues issues (applyOps st ops).editState := by
  induction ops with
  | nil => intro st _ hst; exact hst
  | cons op t ih =>
    intro st h hst
    have h1 := h op (List.mem_cons_self _ _)
    have h2 := fun o ho => h o (List.mem_cons_of_mem _ ho)
    exact ih (applyOp st op) h2 (keysFromIssues_applyOp hst h1)

/-- C5: after any sequence of field-change operations (keyed by rendered
issues drawn from the supplied `issues` input) and saves, starting from an
empty edit buffer, every buffer key references a record identifier of the
supplied input. -/
theorem c5_buffer_keys_reference_issues (issues : List Issue) (ops : List TableOp)
    (h : ∀ op ∈ ops, opFromIssues issues op = true) :
    keysFromIssues issues (applyOps initialTableState ops).editState :=
  keysFromIssues_applyOps issues ops initialTableState h
    (by intro p hp; simp [initialTableState] at hp)

theorem c5_buffer_keys_reference_issues_witness :
    keysFromIssues [sampleIssue]
      (applyOps initialTableState
        [TableOp.fieldChange sampleIssue Field.title (some "New title"),
         TableOp.fieldChange sampleIssue Field.assigneeId none,
         TableOp.save (Except.error "boom"),
         TableOp.save (Except.ok ())]).editState :=
  c5_buffer_keys_reference_issues [sampleIssue] _ (by decide)

/-- C3: when `mermaid.render` throws, the catch branch records an error
message; with generation complete the surface is cleared and the inline
error box is shown, and with generation still in progress the surface
instead ends up showing the most recently successfully rendered SVG (the
`lastValidSvg` cache) and the error box is not shown, so an invalid
in-progress update never blanks a previously valid view. -/
theorem c3_render_error_fallback (st : DiagramState) (out : RenderOutcome)
    (herr : out.isError = true) :
    ((renderDiagram st true out).error.isSome = true ∧
     (renderDiagram st true out).surface = "" ∧
     errorShown (renderDiagram st true out) true = true) ∧
    (∀ svg, st.lastValidSvg = some svg →
      (renderDiagram st false out).error.isSome = true ∧
      (renderDiagram st false out).surface = svg ∧
      errorShown (renderDiagram st false out) false = false) := by
  cases out with
  | ok svg => simp [RenderOutcome.isError] at herr
  | errObj m =>
    constructor
    · refine ⟨?_, ?_, ?_⟩ <;> simp [renderDiagram, renderCatch, errorShown]
    · intro svg hsvg
      refine ⟨?_, ?_, ?_⟩ <;> simp [renderDiagram, renderCatch, errorShown, hsvg]
  | errOther =>
    constructor
    · refine ⟨?_, ?_, ?_⟩ <;> simp [renderDiagram, renderCatch, errorShown]
    · intro svg hsvg
      refine ⟨?_, ?_, ?_⟩ <;> simp [renderDiagram, renderCatch, errorShown, hsvg]

theorem c3_render_error_fallback_witness :
    ((renderDiagram ⟨"<svg>old</svg>", none, some "<svg>old</svg>", false⟩ true
        (RenderOutcome.errObj "parse fail")).error.isSome = true ∧
     (renderDiagram ⟨"<svg>old</svg>", none, some "<svg>old</svg>", false⟩ true
        (RenderOutcome.errObj "parse fail")).surface = "" ∧
     errorShown (renderDiagram ⟨"<svg>old</svg>", none, some "<svg>old</svg>", false⟩ true
        (RenderOutcome.errObj "parse fail")) true = true) ∧
    (∀ svg, (⟨"<svg>old</svg>", none, some "<svg>old</svg>", false⟩ :
        DiagramState).lastValidSvg = some svg →
      (renderDiagram ⟨"<svg>old</svg>", none, some "<svg>old</svg>", false⟩ false
        (RenderOutcome.errObj "parse fail")).error.isSome = true ∧
      (renderDiagram ⟨"<svg>old</svg>", none, some "<svg>old</svg>", false⟩ false
        (RenderOutcome.errObj "parse fail")).surface = svg ∧
      errorShown (renderDiagram ⟨"<svg>old</svg>", none, some "<svg>old</svg>", false⟩ false
        (RenderOutcome.errObj "parse fail")) false = false) :=
  c3_render_error_fallback ⟨"<svg>old</svg>", none, some "<svg>old</svg>", false⟩
    (RenderOutcome.errObj "parse fail") rfl

/-- C8: a payload with `diagram` present parses successfully whenever
`theme` is omitted or one of the five enum values, with each omitted
optional field receiving its default (`theme = "default"`,
`width = "100%"`, `height = "400px"`); a payload whose `theme` is present
but not one of default, dark, forest, base, neutral is rejected. -/
theorem c8_schema_defaults_and_enum (p : RawDiagramPayload) (d : String)
    (hd : p.diagram = some d) :
    ((p.theme = none ∨ ∃ t ∈ themeValues, p.theme = some t) →
      ∃ r, parseRenderDiagram p = some r ∧
        (p.theme = none → r.theme = "default") ∧
        (p.width = none → r.width = "100%") ∧
        (p.height = none → r.height = "400px")) ∧
    (∀ t, p.theme = some t → t ∉ themeValues → parseRenderDiagram p = none) := by
  constructor
  · rintro (ht | ⟨t, htmem, ht⟩)
    · exact ⟨{ diagram := d, title := p.title, theme := "default",
               width := p.width.getD "100%", height := p.height.getD "400px" },
             by simp [parseRenderDiagram, hd, ht], fun _ => rfl,
             fun hw => by simp [hw], fun hh => by simp [hh]⟩
    · have hc : themeValues.contains t = true := by
        simpa [List.contains, List.elem_iff] using htmem
      exact ⟨{ diagram := d, title := p.title, theme := t,
               width := p.width.getD "100%", height := p.height.getD "400px" },
             by simp [parseRenderDiagram, hd, ht, hc, htmem],
             fun h0 => by rw [ht] at h0; exact Option.noConfusion h0,
             fun hw => by simp [hw], fun hh => by simp [hh]⟩
  · intro t ht htnm
    have hc : themeValues.contains t = false := by
      simpa [List.contains, List.elem_iff] using htnm
    simp [parseRenderDiagram, hd, ht, hc, htnm]

theorem c8_schema_defaults_and_enum_witness :
    ((defaultPayload.theme = none ∨ ∃ t ∈ themeValues, defaultPayload.theme = some t) →
      ∃ r, parseRenderDiagram defaultPayload = some r ∧
        (defaultPayload.theme = none → r.theme = "default") ∧
        (defaultPayload.width = none → r.width = "100%") ∧
        (defaultPayload.height = none → r.height = "400px")) ∧
    (∀ t, defaultPayload.theme = some t → t ∉ themeValues →
      parseRenderDiagram defaultPayload = none) :=
  c8_schema_defaults_and_enum defaultPayload "graph TD; A-->B;" rfl

end LinearMcp
